import Mathlib

/-!
Verification of the NyteBubo issue-to-PR workflow engine.

This file gives a shallow embedding, in Lean, of the state-driven
issue-resolution workflow of the NyteBubo agent:

* the Change-Set parser (`parseCodeChanges`, `tryParseJSON`,
  `tryParseMarkdown`, `extractSummary`, `extractIssueNumber` from
  `internal/workflows/issue_to_pr.go`),
* the code-generation retry loop of `StartImplementation`,
* the workflow handlers `HandleIssueAssignment`, `StartImplementation`
  and `HandlePRComment`, and
* the poll-loop dispatcher `processIssue` and `reconcileStatus` from
  `internal/core/poller.go`.

External collaborators (the GitHub REST client, the assistant HTTP
client, the sqlite-backed state store, Go's `encoding/json` unmarshaller
and Go's `regexp` engine) are modelled as oracle inputs: each workflow
function takes an environment record carrying the results those calls
would return, and produces the ordered list of side effects it performs
together with its `error` return value.  Everything the repository's own
code computes (string heuristics, status transitions, control flow,
filtering, backoff arithmetic) is translated directly from the source.

Go `map[string]string` values are modelled as association lists with an
overwriting insert; Go map iteration order (random in Go) is modelled as
insertion order, which no verified property depends on.  Timestamps are
modelled as integer seconds.  The floating-point cost counter of the
state record is not modelled (no claim concerns it).
-/

namespace NB

/-- Substring occurrence test on character lists: does `pat` occur as a
contiguous run inside `s`? -/
def listInfix (pat s : List Char) : Bool :=
  match s with
  | [] => pat.isEmpty
  | _ :: rest => pat.isPrefixOf s || listInfix pat rest

/-- Go `strings.Contains s pat` (the patterns used by the repository are
ASCII, so byte-level and character-level containment coincide). -/
def strContains (s pat : String) : Bool :=
  listInfix pat.data s.data

/-- Go `strings.ToLower` on the ASCII strings the repository feeds it. -/
def lowerStr (s : String) : String :=
  String.mk (s.data.map Char.toLower)

/-- Go `strings.HasSuffix` / the trailing-`?` test. -/
def strEndsWith (s pat : String) : Bool :=
  pat.data.isSuffixOf s.data

/-- Go `strings.HasPrefix`. -/
def strStartsWith (s pat : String) : Bool :=
  pat.data.isPrefixOf s.data

/-- Go `strings.TrimSpace` on the ASCII strings the repository feeds
it. -/
def strTrim (s : String) : String :=
  String.mk
    (((s.data.dropWhile Char.isWhitespace).reverse.dropWhile
      Char.isWhitespace).reverse)

/-- Go `strings.TrimRight content "\n\r \t"` as used by the fenced-block
parser. -/
def trimRightWS (s : String) : String :=
  String.mk ((s.data.reverse.dropWhile
    (fun c => c == '\n' || c == '\r' || c == ' ' || c == '\t')).reverse)

/-- One message of the persisted conversation (`core.AgentMessage`). -/
structure AgentMessage where
  role : String
  content : String
deriving DecidableEq, Repr

/-- Token usage reported by one assistant call (`core.TokenUsage`; the
floating-point cost component is elided, no claim concerns it). -/
structure Usage where
  inputTokens : Int
  outputTokens : Int
deriving DecidableEq, Repr

/-- The persisted per-issue workflow record (`core.State`).  Timestamps
are integer seconds; the floating-point `TotalCost` field is elided. -/
structure State where
  owner : String
  repo : String
  issueNumber : Nat
  status : String
  prNumber : Option Nat
  branchName : String
  conversation : List AgentMessage
  totalInputTokens : Int
  totalOutputTokens : Int
  createdAt : Int
  updatedAt : Int
deriving DecidableEq, Repr

/-- A GitHub issue as consumed by the workflow (title and body). -/
structure Issue where
  title : String
  body : String
deriving DecidableEq, Repr

/-- An issue or PR review comment as consumed by the poller and the
workflow: author login, body, creation time in seconds. -/
structure Comment where
  author : String
  body : String
  createdAt : Int
deriving DecidableEq, Repr

/-- One observable side effect of a workflow or poller operation, in the
order the Go code performs them.  `saved` records a successful
`SaveState` with the record that was written; `dispatch_` effects record
the poller invoking a workflow callback. -/
inductive Effect where
  | saved (s : State)
  | comment (body : String)
  | branchCreated (name base : String)
  | slept (seconds : Nat)
  | fileWrite (path content : String)
  | prCreated (title body head base : String)
  | issueClosed
  | dispatchIssue
  | dispatchImpl
  | dispatchComment (body : String)
  | dispatchPRComment (body : String)
deriving DecidableEq, Repr

/-- Sequencing for trace-producing fallible steps: run `x`; on success
feed its value to `f`, concatenating the effect traces. -/
def andThen {α β : Type} (x : List Effect × Except String α)
    (f : α → List Effect × Except String β) : List Effect × Except String β :=
  match x with
  | (tr, Except.error e) => (tr, Except.error e)
  | (tr, Except.ok a) =>
    match f a with
    | (tr2, r) => (tr ++ tr2, r)

/-- Lift an oracle result into a step, wrapping the error message the way
the Go code wraps it with `fmt.Errorf("...: %w", err)`. -/
def require {α : Type} (msg : String) (r : Except String α) :
    List Effect × Except String α :=
  match r with
  | Except.ok a => ([], Except.ok a)
  | Except.error e => ([], Except.error (msg ++ ": " ++ e))

/-- A step that performs one side effect and succeeds. -/
def emit (e : Effect) : List Effect × Except String Unit :=
  ([e], Except.ok ())

/-- A step that does nothing and succeeds. -/
def skip : List Effect × Except String Unit :=
  ([], Except.ok ())

/-- A step that fails with a bare (unwrapped) error message. -/
def failWith {α : Type} (msg : String) : List Effect × Except String α :=
  ([], Except.error msg)

/-! ## Change-Set parser -/

/-- One entry of the `files` array of the structured JSON dialect. -/
structure JsonFile where
  path : String
  content : String
deriving DecidableEq, Repr

/-- The structured JSON dialect of an assistant reply: a summary and a
list of files.  A value of type `Option JsonResponse` stands for the
outcome of Go's `json.Unmarshal` on the raw reply (`none` when the reply
is not valid JSON for this shape); the unmarshaller itself is Go
standard library, outside the repository. -/
structure JsonResponse where
  summary : String
  files : List JsonFile
deriving DecidableEq, Repr

/-- Go `changes[k] = v` on a `map[string]string` modelled as an
association list: overwrite the existing entry for `k`, otherwise
append. -/
def mapInsert (m : List (String × String)) (k v : String) :
    List (String × String) :=
  if m.any (fun p => p.1 == k) then
    m.map (fun p => if p.1 == k then (k, v) else p)
  else
    m ++ [(k, v)]

/-- `tryParseJSON` (issue_to_pr.go): keep each file entry whose path and
content are both non-empty.  The argument is the unmarshal oracle. -/
def tryParseJSON (j : Option JsonResponse) : List (String × String) :=
  match j with
  | none => []
  | some resp =>
    resp.files.foldl
      (fun m f => if f.path ≠ "" ∧ f.content ≠ "" then mapInsert m f.path f.content else m)
      []

/-- Pattern (a) of `tryParseMarkdown`: process the submatch list of the
first regex (fence tag, then path token, then body); each `(path, body)`
pair is `(match[1], match[2])` of one `FindAllStringSubmatch` result.
The path is trimmed and accepted only if it contains a `.` or a `/`. -/
def pat1Map (m1 : List (String × String)) : List (String × String) :=
  m1.foldl
    (fun acc pr =>
      let fp := strTrim pr.1
      let content := trimRightWS pr.2
      if strContains fp "." || strContains fp "/" then mapInsert acc fp content
      else acc)
    []

/-- Pattern (b) of `tryParseMarkdown`: an explicit File:/Path: label;
every submatch is accepted, with no filter on the path token. -/
def pat2Map (m2 : List (String × String)) : List (String × String) :=
  m2.foldl
    (fun acc pr => mapInsert acc (strTrim pr.1) (trimRightWS pr.2))
    []

/-- Pattern (c) of `tryParseMarkdown`: a bare path line; the trimmed path
is accepted only if it contains a `.` and no space. -/
def pat3Map (m3 : List (String × String)) : List (String × String) :=
  m3.foldl
    (fun acc pr =>
      let fp := strTrim pr.1
      if strContains fp "." && !(strContains fp " ") then
        mapInsert acc fp (trimRightWS pr.2)
      else acc)
    []

/-- `tryParseMarkdown` (issue_to_pr.go): the three fenced-block patterns
tried in order, each only when the previous one contributed no entry.
`m1`, `m2`, `m3` are the submatch lists the three fixed regexes of the
source produce on the raw reply (Go `regexp` is outside the repository;
the filtering and sequencing here is the repository's own code). -/
def tryParseMarkdown (m1 m2 m3 : List (String × String)) :
    List (String × String) :=
  let c1 := pat1Map m1
  if c1.length > 0 then c1
  else
    let c2 := pat2Map m2
    if c2.length > 0 then c2
    else pat3Map m3

/-- `parseCodeChanges` (issue_to_pr.go): JSON dialect first; the
fenced-block parser runs only when the JSON dialect yields no file.  The
boolean records whether the fenced-block parser was invoked. -/
def parseCodeChanges (j : Option JsonResponse)
    (m1 m2 m3 : List (String × String)) : List (String × String) × Bool :=
  let c := tryParseJSON j
  if c.length > 0 then (c, false)
  else (tryParseMarkdown m1 m2 m3, true)

/-! ## Summary extraction -/

/-- The per-file suffix `extractSummary` appends under a
"Files changed:" header. -/
def fileListSuffix (fileChanges : List (String × String)) : String :=
  fileChanges.foldl (fun s p => s ++ "\n- `" ++ p.1 ++ "`") ""

/-- The line-collection loop of `extractSummary`: walk the lines before
the first fence, skipping leading blank lines, keeping blank lines only
after content has been seen. -/
def collectSummaryLines : List String → Bool → List String
  | [], _ => []
  | l :: rest, found =>
    let t := strTrim l
    if strStartsWith t "```" then []
    else if t == "" then
      (if found then "" :: collectSummaryLines rest found
       else collectSummaryLines rest found)
    else l :: collectSummaryLines rest true

/-- Go `strings.Join lines "\n"`. -/
def joinLines : List String → String
  | [] => ""
  | [l] => l
  | l :: rest => l ++ "\n" ++ joinLines rest

/-- `extractSummary` (issue_to_pr.go).  The `j` argument is the JSON
unmarshal oracle for the raw reply (the Go code re-unmarshals the reply
into a summary-only struct; that unmarshal succeeds on exactly the same
replies, with the same `summary` field, as the one behind `j`). -/
def extractSummary (j : Option JsonResponse) (response : String)
    (fileChanges : List (String × String)) : String :=
  match j with
  | some resp =>
    if resp.summary ≠ "" then
      if fileChanges.length > 0 then
        resp.summary ++ "\n\n**Files changed:**" ++ fileListSuffix fileChanges
      else resp.summary
    else extractSummaryMarkdown response fileChanges
  | none => extractSummaryMarkdown response fileChanges
where
  /-- The markdown fallback of `extractSummary`. -/
  extractSummaryMarkdown (response : String)
      (fileChanges : List (String × String)) : String :=
    let lines := response.splitOn "\n"
    let summary0 := strTrim (joinLines (collectSummaryLines lines false))
    let summary1 :=
      if summary0 ≠ "" ∧ fileChanges.length > 0 then
        summary0 ++ "\n\n**Files changed:**" ++ fileListSuffix fileChanges
      else summary0
    if summary1 == "" then
      match fileChanges with
      | [] => summary1
      | [p] => "Updated `" ++ p.1 ++ "`"
      | _ => "Updated " ++ toString fileChanges.length ++ " files:" ++
          fileListSuffix fileChanges
    else summary1

/-! ## Issue-number extraction from a PR body -/

/-- Decimal value of a run of digit characters, as Go `fmt.Sscanf` with
`%d` reads it (issue numbers are far below integer overflow). -/
def digitsToNat (ds : List Char) : Nat :=
  ds.foldl (fun n c => 10 * n + (c.toNat - 48)) 0

/-- Scan for the leftmost occurrence of the literal `Fixes #` followed by
at least one digit — the match of the source regex `Fixes #(\d+)` — and
return the decimal value of the maximal digit run there. -/
def findFixesMarker : List Char → Option Nat
  | [] => none
  | c :: rest =>
    if ("Fixes #".data.isPrefixOf (c :: rest)) &&
        (match (c :: rest).drop 7 with
         | [] => false
         | d :: _ => d.isDigit) then
      some (digitsToNat (((c :: rest).drop 7).takeWhile Char.isDigit))
    else findFixesMarker rest

/-- `extractIssueNumber` (issue_to_pr.go): the first `Fixes #N` marker's
number, or `0` when the regex does not match. -/
def extractIssueNumber (body : String) : Nat :=
  (findFixesMarker body.data).getD 0

/-! ## String heuristics of the workflow engine -/

/-- The clarifying-question heuristic shared by `HandleIssueAssignment`
and `HandleIssueComment`: fixed phrase set plus a trailing `?`. -/
def isAskingQuestion (response : String) : Bool :=
  let lower := lowerStr response
  strContains lower "question?" ||
  strContains lower "questions:" ||
  strContains lower "could you clarify" ||
  strContains lower "can you clarify" ||
  strContains lower "please clarify" ||
  strContains lower "need clarification" ||
  strEndsWith lower "?"

/-- The retryable-error sniffing of the code-generation loop: HTTP 429 or
rate-limit text. -/
def isRateLimitErr (e : String) : Bool :=
  strContains e "429" ||
  strContains (lowerStr e) "rate limit" ||
  strContains (lowerStr e) "rate-limit"

/-- The retryable-error sniffing of the code-generation loop: 5xx or
gateway-type text. -/
def isServerErr (e : String) : Bool :=
  strContains e "500" ||
  strContains e "502" ||
  strContains e "503" ||
  strContains e "504" ||
  strContains (lowerStr e) "internal server error" ||
  strContains (lowerStr e) "bad gateway" ||
  strContains (lowerStr e) "service unavailable" ||
  strContains (lowerStr e) "gateway timeout"

/-- A code-generation failure is retried exactly when it is a rate-limit
or a server error. -/
def isRetryableErr (e : String) : Bool :=
  isRateLimitErr e || isServerErr e

/-- The readiness phrase set of the reconciliation pass
(`reconcileStatus` in poller.go). -/
def indicatesReady (commentBody : String) : Bool :=
  let lower := lowerStr commentBody
  strContains lower "i\x27ll create a pr" ||
  strContains lower "i will create a pr" ||
  strContains lower "i\x27ll create the pr" ||
  strContains lower "i will create the pr" ||
  strContains lower "i\x27ll start working" ||
  strContains lower "i will start working" ||
  strContains lower "proceeding with" ||
  strContains lower "i\x27ll proceed" ||
  strContains lower "i will proceed"

/-! ## Code-generation retry loop -/

/-- The backoff table of `StartImplementation`:
`backoffDurations := [60s, 120s, 240s]`. -/
def backoffDurations : List Nat := [60, 120, 240]

/-- Wait before the retry following failed attempt number `attempt`
(zero-based): the table entry when one exists, else the 240s cap. -/
def waitFor (attempt : Nat) : Nat :=
  (backoffDurations.get? attempt).getD 240

/-- The code-generation retry loop, run over the sequence of outcomes the
assistant client returns for successive attempts.  Returns the list of
sleep durations performed (seconds, in order) and the loop's outcome:
`some (ok ...)` on success, `some (error ...)` on a non-retryable error,
`none` when every provided outcome was a retryable failure (the Go loop
is still retrying at that point; it retries forever). -/
def retryLoop (attempt : Nat) :
    List (Except String (String × Usage)) →
    List Nat × Option (Except String (String × Usage))
  | [] => ([], none)
  | r :: rest =>
    match r with
    | Except.ok v => ([], some (Except.ok v))
    | Except.error e =>
      if isRetryableErr e then
        let out := retryLoop (attempt + 1) rest
        (waitFor attempt :: out.1, out.2)
      else ([], some (Except.error e))

/-- The retry loop as entered by `StartImplementation`, starting at
attempt 0. -/
def retryGenerate (results : List (Except String (String × Usage))) :
    List Nat × Option (Except String (String × Usage)) :=
  retryLoop 0 results

/-! ## Poll loop (poller.go) -/

/-- The bot's most recent comment: last element of the comment list
authored by `username` (the Go code scans from the end). -/
def lastBotComment (comments : List Comment) (username : String) :
    Option Comment :=
  (comments.reverse).find? (fun c => c.author == username)

/-- `reconcileStatus` (poller.go): when the bot's last comment signals
readiness but the record still says `waiting_for_clarification`,
force-transition to `ready_to_implement` and save.  `commentsRes` is the
`ListIssueComments` oracle and `saveRes` the `SaveState` oracle. -/
def reconcileStatus (commentsRes : Except String (List Comment))
    (username : String) (saveRes : Except String Unit) (st : State) :
    List Effect × Except String Unit :=
  match commentsRes with
  | Except.error e => ([], Except.error e)
  | Except.ok comments =>
    match lastBotComment comments username with
    | none => ([], Except.ok ())
    | some c =>
      if indicatesReady c.body && st.status == "waiting_for_clarification" then
        let st' := { st with status := "ready_to_implement" }
        match saveRes with
        | Except.ok _ => ([Effect.saved st'], Except.ok ())
        | Except.error e => ([], Except.error e)
      else ([], Except.ok ())

/-- `getNewComments` / `getNewPRComments` (poller.go): keep comments not
authored by the bot and strictly newer than the record's `updatedAt`. -/
def newCommentsOf (comments : List Comment) (username : String)
    (st : State) : List Comment :=
  comments.filter (fun c => c.author != username && st.updatedAt < c.createdAt)

/-- The oracle environment of one `processIssue` call: results of the
store, tracker and workflow-callback calls it may perform, the bot
username, and the current time in seconds (`time.Since` is `now`
minus the record's `updatedAt`). -/
structure PIEnv where
  getState : Except String (Option State)
  recComments : Except String (List Comment)
  recSave : Except String Unit
  reloadState : Except String (Option State)
  stuckSave : Except String Unit
  newComments : Except String (List Comment)
  prComments : Except String (List Comment)
  handleIssue : Except String Unit
  handleImpl : Except String Unit
  username : String
  now : Int

/-- The reconciliation block of `processIssue` (poller.go lines
128-140): when the record says `waiting_for_clarification`, run
`reconcileStatus` (whose own error is only logged), then reload the
record, error-checking the reload.  Returns the record the rest of the
dispatch works with. -/
def reconcileStep (env : PIEnv) (st0 : State) :
    List Effect × Except String State :=
  if st0.status == "waiting_for_clarification" then
    let rec1 := reconcileStatus env.recComments env.username env.recSave st0
    match env.reloadState with
    | Except.error e =>
      (rec1.1, Except.error ("failed to reload state after reconciliation: " ++ e))
    | Except.ok none =>
      (rec1.1, Except.error "nil state after reconciliation reload")
    | Except.ok (some st1) => (rec1.1, Except.ok st1)
  else ([], Except.ok st0)

/-- The per-status dispatch of `processIssue` on an existing record
(poller.go lines 142-210): ready records chain into implementation,
stuck `implementing` records older than 10 minutes are reset (a failed
reset save is only logged) and re-dispatched, waiting records get their
new comments dispatched, and `pr_created`/`reviewing` records get their
new PR review comments dispatched. -/
def dispatchExisting (env : PIEnv) (st : State) :
    List Effect × Except String Unit :=
  if st.status == "ready_to_implement" then
    ([Effect.dispatchImpl], env.handleImpl)
  else if st.status == "implementing" then
    if env.now - st.updatedAt > 10 * 60 then
      let st' := { st with status := "ready_to_implement" }
      let savedTr :=
        match env.stuckSave with
        | Except.ok _ => [Effect.saved st']
        | Except.error _ => []
      (savedTr ++ [Effect.dispatchImpl], env.handleImpl)
    else ([], Except.ok ())
  else
    let commentStep : List Effect × Except String Unit :=
      if st.status == "waiting_for_clarification" then
        match env.newComments with
        | Except.error e =>
          ([], Except.error ("failed to check for new comments: " ++ e))
        | Except.ok cs =>
          ((newCommentsOf cs env.username st).map
            (fun c => Effect.dispatchComment c.body), Except.ok ())
      else ([], Except.ok ())
    match commentStep with
    | (tr2, Except.error e) => (tr2, Except.error e)
    | (tr2, Except.ok _) =>
      let prStep : List Effect × Except String Unit :=
        if st.status == "pr_created" || st.status == "reviewing" then
          match st.prNumber with
          | none => ([], Except.ok ())
          | some _ =>
            match env.prComments with
            | Except.error e =>
              ([], Except.error ("failed to check for new PR comments: " ++ e))
            | Except.ok cs =>
              ((newCommentsOf cs env.username st).map
                (fun c => Effect.dispatchPRComment c.body), Except.ok ())
        else ([], Except.ok ())
      (tr2 ++ prStep.1, prStep.2)

/-- `processIssue` (poller.go): per-issue dispatch of one poll tick.  The
trace records callback dispatches; each dispatched comment callback's own
error is logged by the Go code, not propagated, so only the dispatch is
recorded. -/
def processIssue (env : PIEnv) : List Effect × Except String Unit :=
  match env.getState with
  | Except.error e => ([], Except.error ("failed to get state: " ++ e))
  | Except.ok none => ([Effect.dispatchIssue], env.handleIssue)
  | Except.ok (some st0) =>
    match reconcileStep env st0 with
    | (tr, Except.error e) => (tr, Except.error e)
    | (tr, Except.ok st) =>
      match dispatchExisting env st with
      | (tr2, r) => (tr ++ tr2, r)

/-! ## HandleIssueAssignment (issue_to_pr.go) -/

/-- The oracle environment of one `HandleIssueAssignment` call. -/
structure HIAEnv where
  getIssue : Except String Issue
  getState : Except String (Option State)
  listComments : Except String (List Comment)
  authUser : Except String String
  analyzeIssue : Except String (String × Usage)
  sendMessage : Except String (String × Usage)
  createComment : Except String Unit
  saveState : Except String Unit
  startImpl : Except String Unit

/-- The `shouldComment` test of `HandleIssueAssignment`: post the
analysis reply only while the conversation still has its initial
two-message shape (issue plus first reply). -/
def shouldPostAnalysis (conv : List AgentMessage) : Bool :=
  conv.length ≤ 2

/-- Content of the last message of a conversation (empty when the
conversation is empty); the Go code only consults it under a
non-emptiness guard. -/
def lastContent (conv : List AgentMessage) : String :=
  match conv.getLast? with
  | some m => m.content
  | none => ""

/-- The record `HandleIssueAssignment` builds for a first observation:
status `analyzing`, conversation seeded from the issue title and body
plus any pre-existing comments classified by author (comments are added
only when the bot-identity lookup succeeds; a comment-listing failure is
only a logged warning and yields an empty list). -/
def builtFreshState (owner repo : String) (issueNumber : Nat) (issue : Issue)
    (listComments : Except String (List Comment))
    (authUser : Except String String) : State :=
  let comments := match listComments with
    | Except.ok cs => cs
    | Except.error _ => []
  let conv1 : List AgentMessage :=
    [⟨"user", "Issue Title: " ++ issue.title ++ "\n\nIssue Description:\n" ++ issue.body⟩]
  let conv2 :=
    match authUser with
    | Except.ok bot =>
      if comments.length > 0 then
        conv1 ++ comments.map (fun c =>
          ⟨if c.author == bot then "assistant" else "user", c.body⟩)
      else conv1
    | Except.error _ => conv1
  { owner := owner, repo := repo, issueNumber := issueNumber,
    status := "analyzing", prNumber := none, branchName := "",
    conversation := conv2, totalInputTokens := 0, totalOutputTokens := 0,
    createdAt := 0, updatedAt := 0 }

/-- The tail of `HandleIssueAssignment` (issue_to_pr.go lines 710-747):
post the analysis reply as a comment only while the conversation still
has its initial two-message shape, classify the reply with the question
heuristic, save the record with the resulting status, and chain into
implementation when ready. -/
def analysisTail (env : HIAEnv) (state2 : State) (response : String) :
    List Effect × Except String Unit :=
  let commentStep : List Effect × Except String Unit :=
    if shouldPostAnalysis state2.conversation then
      andThen (require "failed to create comment" env.createComment) (fun _ =>
        emit (Effect.comment
          ("👋 Hi! I\x27ve been assigned to this issue. Here\x27s my understanding:\n\n"
            ++ response)))
    else skip
  andThen commentStep (fun _ =>
  let state3 := { state2 with
    status := if isAskingQuestion response then "waiting_for_clarification"
              else "ready_to_implement" }
  andThen (require "failed to save state" env.saveState) (fun _ =>
  andThen (emit (Effect.saved state3)) (fun _ =>
  if state3.status == "ready_to_implement" then
    andThen (emit Effect.dispatchImpl) (fun _ => ([], env.startImpl))
  else skip)))

/-- `HandleIssueAssignment` (issue_to_pr.go): first-observation analysis.
Builds or loads the record, runs the analyze conversation turn, posts the
analysis comment only when the conversation still has its initial
two-message shape, classifies the reply with the question heuristic,
saves, and chains into implementation when ready.  In the fresh-issue
branch the Go code appends the (zero-valued) reply to the conversation
before checking the call's error; with an error it returns before any
save, so the append is unobservable. -/
def handleIssueAssignment (env : HIAEnv) (owner repo : String)
    (issueNumber : Nat) : List Effect × Except String Unit :=
  andThen (require "failed to get issue" env.getIssue) (fun issue =>
  andThen (require "failed to get state" env.getState) (fun st0 =>
  let state0 : State :=
    match st0 with
    | some s => s
    | none => builtFreshState owner repo issueNumber issue env.listComments env.authUser
  let analysis : Except String (String × Usage) × List AgentMessage :=
    if state0.conversation.length > 1 then
      (env.sendMessage, state0.conversation)
    else
      match env.analyzeIssue with
      | Except.ok (r, u) =>
        (Except.ok (r, u), state0.conversation ++ [⟨"assistant", r⟩])
      | Except.error e =>
        (Except.error e, state0.conversation ++ [⟨"assistant", ""⟩])
  andThen (require "failed to analyze issue" analysis.1) (fun ru =>
  let response := ru.1
  let usage := ru.2
  let state1 := { state0 with
    conversation := analysis.2,
    totalInputTokens := state0.totalInputTokens + usage.inputTokens,
    totalOutputTokens := state0.totalOutputTokens + usage.outputTokens }
  let state2 :=
    if state1.conversation.length > 0 && lastContent state1.conversation != response then
      { state1 with conversation := state1.conversation ++ [⟨"assistant", response⟩] }
    else state1
  analysisTail env state2 response)))

/-! ## StartImplementation (issue_to_pr.go) -/

/-- The oracle environment of one `StartImplementation` call.  `json`,
`m1`, `m2`, `m3` are the parse oracles (JSON unmarshal and regex
submatch lists) for the generated reply; `genResults` is the sequence of
outcomes of successive `GenerateCode` attempts consumed by the retry
loop. -/
structure SIEnv where
  getState : Except String (Option State)
  saveImplementing : Except String Unit
  commentStart : Except String Unit
  getRepo : Except String (String × String)
  createBranch : Except String Unit
  saveBranch : Except String Unit
  genResults : List (Except String (String × Usage))
  json : Option JsonResponse
  m1 : List (String × String)
  m2 : List (String × String)
  m3 : List (String × String)
  commentEmpty : Except String Unit
  saveEmpty : Except String Unit
  fileWrite : String → Except String Unit
  getIssue : Except String Issue
  saveCompleted : Except String Unit
  commentCompleted : Except String Unit
  closeIssue : Except String Unit
  createPR : Except String Nat
  savePR : Except String Unit
  commentPR : Except String Unit

/-- The notification comment posted when implementation starts. -/
def startWorkComment : String :=
  "🚀 Great! I have a clear understanding now. I\x27ll start working on this and create a pull request shortly."

/-- The comment template used when the parsed Change Set is empty: the
raw assistant reply wrapped for human inspection. -/
def emptyChangeSetComment (codeResponse : String) : String :=
  "⚠️ I attempted to implement this issue, but couldn\x27t generate files in the correct format.\n\nHere\x27s what I tried to generate:\n\n"
    ++ codeResponse
    ++ "\n\n---\n\nCould you please review this and let me know if you need me to try again with different instructions?\n\n🤖 NyteBubo"

/-- Branch resolution of `StartImplementation`: reuse the recorded
branch; otherwise derive `nytebubo/issue-N`, create it (falling back to
the default branch when creation fails with a 409/empty-repository
error), and save the record with the branch name persisted.  Returns the
work branch name and the updated record. -/
def resolveBranch (env : SIEnv) (issueNumber : Nat) (defaultBranch : String)
    (st : State) : List Effect × Except String (String × State) :=
  if st.branchName != "" then
    ([], Except.ok (st.branchName, st))
  else
    let bn := "nytebubo/issue-" ++ toString issueNumber
    let branchStep : List Effect × Except String String :=
      match env.createBranch with
      | Except.ok _ => ([Effect.branchCreated bn defaultBranch], Except.ok bn)
      | Except.error e =>
        if strContains e "409" || strContains e "empty" then
          ([], Except.ok defaultBranch)
        else ([], Except.error ("failed to create branch: " ++ e))
    andThen branchStep (fun name =>
      let st' := { st with branchName := name }
      andThen (require "failed to save state after branch creation" env.saveBranch)
        (fun _ => ([Effect.saved st'], Except.ok (name, st'))))

/-- Sequential application of the parsed file changes with
`CreateOrUpdateFile` (map iteration order modelled as insertion
order). -/
def applyChanges (fileWrite : String → Except String Unit) :
    List (String × String) → List Effect × Except String Unit
  | [] => ([], Except.ok ())
  | (p, c) :: rest =>
    match fileWrite p with
    | Except.error e => ([], Except.error ("failed to update file " ++ p ++ ": " ++ e))
    | Except.ok _ =>
      andThen (emit (Effect.fileWrite p c)) (fun _ => applyChanges fileWrite rest)

/-- `StartImplementation` (issue_to_pr.go): mark the record
`implementing`, post the starting comment, resolve the work branch, run
the code-generation retry loop, parse the reply into a Change Set; on an
empty parse post the raw reply and revert to `waiting_for_clarification`
(success, not an error); otherwise apply the changes and either complete
directly on the default branch (empty repository) or open a PR.  A
`none` outcome of the retry loop stands for a loop that is still
retrying after all provided attempt outcomes; no further effect is
observable at that point. -/
def startImplementation (env : SIEnv) (_owner _repo : String)
    (issueNumber : Nat) : List Effect × Except String Unit :=
  andThen (require "failed to get state" env.getState) (fun st0opt =>
  match st0opt with
  | none => failWith "no state found"
  | some st0 =>
  let st1 := { st0 with status := "implementing" }
  andThen (require "failed to save state" env.saveImplementing) (fun _ =>
  andThen (emit (Effect.saved st1)) (fun _ =>
  andThen (require "failed to create comment" env.commentStart) (fun _ =>
  andThen (emit (Effect.comment startWorkComment)) (fun _ =>
  andThen (require "failed to get repository" env.getRepo) (fun repoInfo =>
  let defaultBranch := if repoInfo.2 == "" then "main" else repoInfo.2
  andThen (resolveBranch env issueNumber defaultBranch st1) (fun bs =>
  let branchName := bs.1
  let st2 := bs.2
  let gen := retryGenerate env.genResults
  andThen (gen.1.map Effect.slept, Except.ok ()) (fun _ =>
  match gen.2 with
  | none => failWith "code generation still retrying after the modelled attempts"
  | some (Except.error e) => failWith ("failed to generate code: " ++ e)
  | some (Except.ok (codeResponse, usage)) =>
  let st3 := { st2 with
    totalInputTokens := st2.totalInputTokens + usage.inputTokens,
    totalOutputTokens := st2.totalOutputTokens + usage.outputTokens }
  let fileChanges := (parseCodeChanges env.json env.m1 env.m2 env.m3).1
  let summary := extractSummary env.json codeResponse fileChanges
  if fileChanges.length == 0 then
    andThen (require "failed to create comment" env.commentEmpty) (fun _ =>
    andThen (emit (Effect.comment (emptyChangeSetComment codeResponse))) (fun _ =>
    let st4 := { st3 with status := "waiting_for_clarification" }
    andThen (require "failed to save state" env.saveEmpty) (fun _ =>
    andThen (emit (Effect.saved st4)) (fun _ => skip))))
  else
    andThen (applyChanges env.fileWrite fileChanges) (fun _ =>
    andThen (require "failed to get issue" env.getIssue) (fun issue =>
    if branchName == defaultBranch then
      let st4 := { st3 with status := "completed" }
      andThen (require "failed to save state" env.saveCompleted) (fun _ =>
      andThen (emit (Effect.saved st4)) (fun _ =>
      andThen (require "failed to create comment" env.commentCompleted) (fun _ =>
      andThen (emit (Effect.comment
        ("✅ I\x27ve committed the changes directly to the `" ++ defaultBranch
          ++ "` branch since the repository was empty.\n\n" ++ summary
          ++ "\n\nClosing this issue as completed.\n\n---\n\n🤖 Changes made by NyteBubo")))
        (fun _ =>
      match env.closeIssue with
      | Except.ok _ => ([Effect.issueClosed], Except.ok ())
      | Except.error _ => skip))))
    else
      let prTitle := "Fix: " ++ issue.title
      let prBody := "Fixes #" ++ toString issueNumber ++ "\n\n" ++ summary
        ++ "\n\n---\n\n🤖 This PR was automatically generated by NyteBubo"
      andThen (require "failed to create PR" env.createPR) (fun prNumber =>
      andThen (emit (Effect.prCreated prTitle prBody branchName defaultBranch)) (fun _ =>
      let st4 := { st3 with prNumber := some prNumber, status := "pr_created" }
      andThen (require "failed to save state" env.savePR) (fun _ =>
      andThen (emit (Effect.saved st4)) (fun _ =>
      andThen (require "failed to create comment" env.commentPR) (fun _ =>
      emit (Effect.comment
        ("✅ I\x27ve created a pull request: #" ++ toString prNumber)))))))))))))))))

/-! ## HandlePRComment (issue_to_pr.go) -/

/-- The oracle environment of one `HandlePRComment` call.  `getPR`
returns the PR body; `json`, `m1`, `m2`, `m3` are the parse oracles for
the revision reply. -/
structure PRCEnv where
  getPR : Except String String
  getState : Except String (Option State)
  reviewFeedback : Except String (String × Usage)
  json : Option JsonResponse
  m1 : List (String × String)
  m2 : List (String × String)
  m3 : List (String × String)
  fileWrite : String → Except String Unit
  save : Except String Unit

/-- `HandlePRComment` (issue_to_pr.go): recover the originating issue
number from the `Fixes #N` marker of the PR body (error out when
absent), set status `reviewing`, run a revision turn, apply any parsed
changes to the existing branch, and save. -/
def handlePRComment (env : PRCEnv) (commentBody : String) :
    List Effect × Except String Unit :=
  andThen (require "failed to get PR" env.getPR) (fun prBody =>
  if extractIssueNumber prBody == 0 then
    failWith "could not find issue number in PR body"
  else
  andThen (require "failed to get state" env.getState) (fun st0opt =>
  match st0opt with
  | none => failWith "no state found"
  | some st0 =>
  let st1 := { st0 with
    status := "reviewing",
    conversation := st0.conversation ++
      [(⟨"user", "Review feedback: " ++ commentBody⟩ : AgentMessage)] }
  andThen (require "failed to get review response" env.reviewFeedback) (fun ru =>
  let st2 := { st1 with
    totalInputTokens := st1.totalInputTokens + ru.2.inputTokens,
    totalOutputTokens := st1.totalOutputTokens + ru.2.outputTokens,
    conversation := st1.conversation ++ [(⟨"assistant", ru.1⟩ : AgentMessage)] }
  let fileChanges := (parseCodeChanges env.json env.m1 env.m2 env.m3).1
  andThen (applyChanges env.fileWrite fileChanges) (fun _ =>
  andThen (require "failed to save state" env.save) (fun _ =>
  emit (Effect.saved st2))))))

/-! ## Trace observations -/

/-- Number of issue comments posted in a trace. -/
def commentCount (tr : List Effect) : Nat :=
  (tr.filter (fun e => match e with
    | Effect.comment _ => true
    | _ => false)).length

/-- Number of implementation dispatches (chains into
`StartImplementation`) in a trace. -/
def implDispatchCount (tr : List Effect) : Nat :=
  (tr.filter (fun e => match e with
    | Effect.dispatchImpl => true
    | _ => false)).length

/-- The statuses of the records written by the successful saves of a
trace, in order. -/
def savedStatuses (tr : List Effect) : List String :=
  tr.filterMap (fun e => match e with
    | Effect.saved s => some s.status
    | _ => none)

/-- Number of successful record saves in a trace. -/
def savedCount (tr : List Effect) : Nat :=
  (savedStatuses tr).length

/-- Number of new-issue dispatches (invocations of the new-issue
callback) in a trace. -/
def issueDispatchCount (tr : List Effect) : Nat :=
  (tr.filter (fun e => match e with
    | Effect.dispatchIssue => true
    | _ => false)).length

/-- Whether a trace writes any repository file. -/
def hasFileWrite (tr : List Effect) : Bool :=
  tr.any (fun e => match e with
    | Effect.fileWrite _ _ => true
    | _ => false)

/-! ## The code-generation backoff sequence (claim C4) -/

theorem retryLoop_retryable_then (msgs : List String)
    (last : Except String (String × Usage)) (attempt : Nat)
    (h : ∀ m ∈ msgs, isRetryableErr m = true)
    (hlast : ∀ e, last = Except.error e → isRetryableErr e = false) :
    retryLoop attempt (msgs.map Except.error ++ [last]) =
      ((List.range msgs.length).map (fun i => waitFor (attempt + i)), some last) := by
  induction msgs generalizing attempt with
  | nil =>
    cases last with
    | ok v => simp [retryLoop]
    | error e => simp [retryLoop, hlast e rfl]
  | cons m ms ih =>
    have hm : isRetryableErr m = true := h m (by simp)
    have hms : ∀ x ∈ ms, isRetryableErr x = true := fun x hx => h x (by simp [hx])
    simp only [List.map_cons, List.cons_append, retryLoop, hm, if_true,
      List.append_eq]
    rw [ih (attempt + 1) hms]
    simp only [List.length_cons, List.range_succ_eq_map, List.map_cons,
      List.map_map, Prod.mk.injEq, and_true]
    congr 1
    apply List.map_congr_left
    intro a _
    simp only [Function.comp_apply]
    congr 1
    omega

/-- C4: in the code-generation retry loop, a run of consecutive
retryable failures sleeps exactly 60s, 120s, 240s, then 240s for every
further attempt, and a non-retryable error on any attempt (the first
included) causes zero sleeps and is returned immediately. -/
theorem retry_backoff_exact :
    (∀ (msgs : List String) (last : Except String (String × Usage)),
      (∀ m ∈ msgs, isRetryableErr m = true) →
      (∀ e, last = Except.error e → isRetryableErr e = false) →
      retryGenerate (msgs.map Except.error ++ [last]) =
        ((List.range msgs.length).map waitFor, some last)) ∧
    (waitFor 0 = 60 ∧ waitFor 1 = 120 ∧ ∀ i, 2 ≤ i → waitFor i = 240) ∧
    (∀ (e : String) (rest : List (Except String (String × Usage))),
      isRetryableErr e = false →
      retryGenerate (Except.error e :: rest) = ([], some (Except.error e))) := by
  refine ⟨?_, ⟨rfl, rfl, ?_⟩, ?_⟩
  · intro msgs last h hlast
    have := retryLoop_retryable_then msgs last 0 h hlast
    simpa [retryGenerate] using this
  · intro i hi
    match i, hi with
    | 2, _ => rfl
    | (n + 3), _ => simp [waitFor, backoffDurations]
  · intro e rest he
    simp [retryGenerate, retryLoop, he]

theorem retry_backoff_exact_witness :
    retryGenerate [Except.error "429", Except.error "502 bad gateway",
      Except.error "rate limit exceeded", Except.error "503",
      Except.ok ("resp", ⟨1, 2⟩)] =
      ([60, 120, 240, 240], some (Except.ok ("resp", ⟨1, 2⟩))) ∧
    retryGenerate [Except.error "401 unauthorized"] =
      ([], some (Except.error "401 unauthorized")) := by
  constructor
  · have h := retry_backoff_exact.1
      ["429", "502 bad gateway", "rate limit exceeded", "503"]
      (Except.ok ("resp", ⟨1, 2⟩)) (by decide)
      (fun e he => Except.noConfusion he)
    exact h
  · exact retry_backoff_exact.2.2 "401 unauthorized" [] (by decide)

/-! ## Issue-number extraction (claim C9) -/

theorem isPrefixOf_self_append (l t : List Char) :
    l.isPrefixOf (l ++ t) = true := by
  induction l with
  | nil => simp [List.isPrefixOf]
  | cons a l' ih => simp [List.isPrefixOf, ih]

theorem takeWhile_append_all (p : Char → Bool) (l t : List Char)
    (hl : ∀ c ∈ l, p c = true)
    (ht : ∀ c, t.head? = some c → p c = false) :
    (l ++ t).takeWhile p = l := by
  induction l with
  | nil =>
    cases t with
    | nil => rfl
    | cons c t' => simp [List.takeWhile_cons, ht c rfl]
  | cons a l' ih =>
    simp [List.takeWhile_cons, hl a (by simp),
      ih (fun c hc => hl c (by simp [hc]))]

theorem findFixesMarker_at_head (ds : List Char) (t : List Char)
    (hne : ds ≠ []) (hd : ∀ c ∈ ds, c.isDigit = true)
    (ht : ∀ c, t.head? = some c → c.isDigit = false) :
    findFixesMarker ("Fixes #".data ++ (ds ++ t)) = some (digitsToNat ds) := by
  cases ds with
  | nil => exact absurd rfl hne
  | cons d ds' =>
    have hdig : d.isDigit = true := hd d (by simp)
    have hdrop : (('F' :: ("ixes #".data ++ (d :: ds' ++ t))).drop 7) =
        d :: ds' ++ t := by
      show (("Fixes #".data ++ (d :: ds' ++ t)).drop 7) = d :: ds' ++ t
      have h7 : ("Fixes #".data).length = 7 := rfl
      rw [← h7, List.drop_left]
    have hpre : "Fixes #".data.isPrefixOf
        ('F' :: ("ixes #".data ++ (d :: ds' ++ t))) = true :=
      isPrefixOf_self_append "Fixes #".data (d :: ds' ++ t)
    show findFixesMarker ('F' :: ("ixes #".data ++ (d :: ds' ++ t))) = _
    simp only [findFixesMarker]
    rw [hdrop, hpre]
    rw [show ((d :: ds' ++ t).takeWhile Char.isDigit) = d :: ds' from
      takeWhile_append_all Char.isDigit (d :: ds') t hd ht]
    simp [hdig]

theorem findFixesMarker_eq_none (l : List Char)
    (h : ∀ pre post (d : Char),
      l = pre ++ "Fixes #".data ++ (d :: post) → d.isDigit = false) :
    findFixesMarker l = none := by
  induction l with
  | nil => rfl
  | cons c r ih =>
    have hcond : (("Fixes #".data.isPrefixOf (c :: r)) &&
        (match (c :: r).drop 7 with
         | [] => false
         | d :: _ => d.isDigit)) = false := by
      by_cases hp : "Fixes #".data.isPrefixOf (c :: r) = true
      · have hpre : "Fixes #".data <+: (c :: r) := by
          rwa [← List.isPrefixOf_iff_prefix]
        obtain ⟨t, ht⟩ := hpre
        have hdrop : ((c :: r).drop 7) = t := by
          rw [← ht]
          have h7 : ("Fixes #".data).length = 7 := rfl
          rw [← h7, List.drop_left]
        cases t with
        | nil => simp [hdrop]
        | cons d post =>
          have hdig : d.isDigit = false := by
            refine h [] post d ?_
            rw [← ht]
            simp
          simp [hdrop, hdig]
      · simp [Bool.eq_false_iff.mpr hp]
    simp only [findFixesMarker, hcond, if_false]
    exact ih (fun pre post d hEq => h (c :: pre) post d (by simp [hEq]))

/-- C9: a PR body beginning with the literal marker `Fixes #N` makes
`extractIssueNumber` return `N`; a body containing no `Fixes #`-digits
marker makes it return `0`; and on a `0` extraction `HandlePRComment`
errors out instead of proceeding. -/
theorem extract_issue_number_spec :
    (∀ (ds : List Char) (rest : String), ds ≠ [] →
      (∀ c ∈ ds, c.isDigit = true) →
      (∀ c, rest.data.head? = some c → c.isDigit = false) →
      extractIssueNumber ("Fixes #" ++ String.mk ds ++ rest) = digitsToNat ds) ∧
    (∀ body : String,
      (∀ pre post (d : Char),
        body.data = pre ++ "Fixes #".data ++ (d :: post) → d.isDigit = false) →
      extractIssueNumber body = 0) ∧
    (∀ (env : PRCEnv) (prBody commentBody : String),
      env.getPR = Except.ok prBody →
      extractIssueNumber prBody = 0 →
      handlePRComment env commentBody =
        ([], Except.error "could not find issue number in PR body")) := by
  refine ⟨?_, ?_, ?_⟩
  · intro ds rest hne hd hrest
    have hdata : ("Fixes #" ++ String.mk ds ++ rest).data =
        "Fixes #".data ++ (ds ++ rest.data) := by
      show ("Fixes #".data ++ ds) ++ rest.data = _
      simp
    unfold extractIssueNumber
    rw [hdata, findFixesMarker_at_head ds rest.data hne hd hrest]
    rfl
  · intro body h
    unfold extractIssueNumber
    rw [findFixesMarker_eq_none body.data (fun pre post d hEq => h pre post d (by simpa using hEq))]
    rfl
  · intro env prBody commentBody hpr h0
    unfold handlePRComment
    rw [hpr]
    simp [require, andThen, h0, failWith]

theorem extract_issue_number_spec_witness :
    extractIssueNumber "Fixes #42\n\nmore detail" = 42 ∧
    extractIssueNumber "" = 0 ∧
    handlePRComment
      ⟨Except.ok "no marker body", Except.ok none, Except.ok ("", ⟨0, 0⟩),
        none, [], [], [], fun _ => Except.ok (), Except.ok ()⟩ "lgtm" =
      ([], Except.error "could not find issue number in PR body") := by
  refine ⟨?_, ?_, ?_⟩
  · exact extract_issue_number_spec.1 ['4', '2'] "\n\nmore detail"
      (by decide) (by decide) (by decide)
  · refine extract_issue_number_spec.2.1 "" ?_
    intro pre post d h
    have hlen := congrArg List.length h
    simp at hlen
    omega
  · exact extract_issue_number_spec.2.2 _ "no marker body" "lgtm" rfl (by decide)

/-! ## Structured-dialect parsing (claim C7) -/

theorem mapInsert_not_mem (m : List (String × String)) (k v : String)
    (h : ∀ p ∈ m, p.1 ≠ k) : mapInsert m k v = m ++ [(k, v)] := by
  have hany : m.any (fun p => p.1 == k) = false := by
    rw [List.any_eq_false]
    intro p hp
    simpa using h p hp
  simp [mapInsert, hany]

theorem jsonFold_append (files : List JsonFile) (acc : List (String × String))
    (hne : ∀ f ∈ files, f.path ≠ "" ∧ f.content ≠ "")
    (hdisj : ∀ f ∈ files, ∀ p ∈ acc, p.1 ≠ f.path)
    (hnd : (files.map JsonFile.path).Nodup) :
    files.foldl
      (fun m f => if f.path ≠ "" ∧ f.content ≠ "" then mapInsert m f.path f.content else m)
      acc = acc ++ files.map (fun f => (f.path, f.content)) := by
  induction files generalizing acc with
  | nil => simp
  | cons f fs ih =>
    have hf := hne f (by simp)
    have hnd2 : f.path ∉ fs.map JsonFile.path ∧ (fs.map JsonFile.path).Nodup := by
      have h0 := hnd
      rw [List.map_cons, List.nodup_cons] at h0
      exact h0
    simp only [List.foldl_cons, if_pos hf]
    rw [mapInsert_not_mem _ _ _ (fun p hp => hdisj f (by simp) p hp)]
    rw [ih (acc ++ [(f.path, f.content)])
      (fun g hg => hne g (by simp [hg]))
      (fun g hg p hp => by
        rcases List.mem_append.mp hp with hin | hone
        · exact hdisj g (by simp [hg]) p hin
        · have hp1 : p.1 = f.path := by
            rcases List.mem_singleton.mp hone with rfl
            rfl
          rw [hp1]
          intro hEq
          apply hnd2.1
          rw [hEq]
          exact List.mem_map_of_mem JsonFile.path hg)
      hnd2.2]
    simp

theorem lookup_map_pair (files : List JsonFile) (f : JsonFile) (hf : f ∈ files)
    (hnd : (files.map JsonFile.path).Nodup) :
    (files.map (fun g => (g.path, g.content))).lookup f.path = some f.content := by
  induction files with
  | nil => cases hf
  | cons g gs ih =>
    have hnd2 : g.path ∉ gs.map JsonFile.path ∧ (gs.map JsonFile.path).Nodup := by
      have h0 := hnd
      rw [List.map_cons, List.nodup_cons] at h0
      exact h0
    rcases List.mem_cons.mp hf with rfl | hmem
    · simp [List.lookup]
    · have hne : (f.path == g.path) = false := by
        rw [beq_eq_false_iff_ne]
        intro hEq
        apply hnd2.1
        rw [← hEq]
        exact List.mem_map_of_mem JsonFile.path hmem
      simp [List.lookup, hne, ih hmem hnd2.2]

/-- C7 (amended): a structured-dialect reply whose `files` array is
non-empty, with pairwise-distinct non-empty paths and non-empty
contents, parses to exactly one map entry per file with the content
preserved byte-for-byte, and the fenced-block parser is never
invoked. -/
theorem structured_dialect_roundtrip (s : String) (files : List JsonFile)
    (m1 m2 m3 : List (String × String))
    (hnil : files ≠ [])
    (hne : ∀ f ∈ files, f.path ≠ "" ∧ f.content ≠ "")
    (hnd : (files.map JsonFile.path).Nodup) :
    (parseCodeChanges (some ⟨s, files⟩) m1 m2 m3).1.length = files.length ∧
    (∀ f ∈ files,
      (parseCodeChanges (some ⟨s, files⟩) m1 m2 m3).1.lookup f.path =
        some f.content) ∧
    (parseCodeChanges (some ⟨s, files⟩) m1 m2 m3).2 = false := by
  have hjson : tryParseJSON (some ⟨s, files⟩) =
      files.map (fun f => (f.path, f.content)) := by
    unfold tryParseJSON
    simpa using jsonFold_append files [] hne (by simp) hnd
  have hpos : 0 < (tryParseJSON (some ⟨s, files⟩)).length := by
    rw [hjson, List.length_map]
    cases files with
    | nil => exact absurd rfl hnil
    | cons a l => simp
  have hparse : parseCodeChanges (some ⟨s, files⟩) m1 m2 m3 =
      (files.map (fun f => (f.path, f.content)), false) := by
    unfold parseCodeChanges
    simp [if_pos hpos, hjson, hnil]
  refine ⟨?_, ?_, ?_⟩
  · rw [hparse]
    simp
  · intro f hf
    rw [hparse]
    exact lookup_map_pair files f hf hnd
  · rw [hparse]

/-- C7 (counterexample to the claim as stated): two `files` entries with
the same path — each with non-empty path and content — produce a single
map entry, not two; and an empty `files` array makes `parseCodeChanges`
fall through to the fenced-block parser. -/
theorem structured_dialect_counterexample :
    (∀ f ∈ ([⟨"a.go", "x"⟩, ⟨"a.go", "y"⟩] : List JsonFile),
      f.path ≠ "" ∧ f.content ≠ "") ∧
    (parseCodeChanges (some ⟨"add", [⟨"a.go", "x"⟩, ⟨"a.go", "y"⟩]⟩)
      [] [] []).1.length = 1 ∧
    (parseCodeChanges (some ⟨"empty", []⟩) [] [] []).2 = true := by
  decide

theorem structured_dialect_roundtrip_witness :
    (parseCodeChanges
      (some ⟨"add files", [⟨"a.go", "package a"⟩, ⟨"b.go", "package b"⟩]⟩)
      [] [] []).1.length = 2 ∧
    (parseCodeChanges
      (some ⟨"add files", [⟨"a.go", "package a"⟩, ⟨"b.go", "package b"⟩]⟩)
      [] [] []).1.lookup "a.go" = some "package a" ∧
    (parseCodeChanges
      (some ⟨"add files", [⟨"a.go", "package a"⟩, ⟨"b.go", "package b"⟩]⟩)
      [] [] []).2 = false := by
  have h := structured_dialect_roundtrip "add files"
    [⟨"a.go", "package a"⟩, ⟨"b.go", "package b"⟩] [] [] []
    (by decide) (by decide) (by decide)
  exact ⟨h.1, h.2.1 ⟨"a.go", "package a"⟩ (by decide), h.2.2⟩

/-! ## Fenced-block patterns (claim C8) -/

theorem mem_mapInsert (m : List (String × String)) (k v : String)
    (q : String × String) (hq : q ∈ mapInsert m k v) : q.1 = k ∨ q ∈ m := by
  unfold mapInsert at hq
  by_cases h : m.any (fun p => p.1 == k) = true
  · rw [if_pos h] at hq
    rcases List.mem_map.mp hq with ⟨p, hp, hEq⟩
    by_cases hpk : (p.1 == k) = true
    · left
      rw [← hEq, if_pos hpk]
    · right
      rw [← hEq, if_neg hpk]
      exact hp
  · rw [if_neg h] at hq
    rcases List.mem_append.mp hq with h1 | h2
    · right
      exact h1
    · left
      rcases List.mem_singleton.mp h2 with rfl
      rfl

theorem pat1_fold_keys (l : List (String × String))
    (acc : List (String × String))
    (hacc : ∀ q ∈ acc, strContains q.1 "." = true ∨ strContains q.1 "/" = true) :
    ∀ q ∈ l.foldl
      (fun acc pr =>
        if strContains (strTrim pr.1) "." || strContains (strTrim pr.1) "/" then
          mapInsert acc (strTrim pr.1) (trimRightWS pr.2)
        else acc) acc,
      strContains q.1 "." = true ∨ strContains q.1 "/" = true := by
  induction l generalizing acc with
  | nil => exact hacc
  | cons pr l' ih =>
    simp only [List.foldl_cons]
    apply ih
    by_cases hc : (strContains (strTrim pr.1) "." || strContains (strTrim pr.1) "/") = true
    · rw [if_pos hc]
      intro q hq
      rcases mem_mapInsert _ _ _ q hq with h1 | h2
      · rw [h1]
        exact Bool.or_eq_true_iff.mp hc
      · exact hacc q h2
    · rw [if_neg hc]
      exact hacc

theorem pat3_fold_keys (l : List (String × String))
    (acc : List (String × String))
    (hacc : ∀ q ∈ acc, strContains q.1 "." = true ∧ strContains q.1 " " = false) :
    ∀ q ∈ l.foldl
      (fun acc pr =>
        if strContains (strTrim pr.1) "." && !(strContains (strTrim pr.1) " ") then
          mapInsert acc (strTrim pr.1) (trimRightWS pr.2)
        else acc) acc,
      strContains q.1 "." = true ∧ strContains q.1 " " = false := by
  induction l generalizing acc with
  | nil => exact hacc
  | cons pr l' ih =>
    simp only [List.foldl_cons]
    apply ih
    by_cases hc : (strContains (strTrim pr.1) "." && !(strContains (strTrim pr.1) " ")) = true
    · rw [if_pos hc]
      intro q hq
      rcases mem_mapInsert _ _ _ q hq with h1 | h2
      · rw [h1]
        have h3 := Bool.and_eq_true_iff.mp hc
        exact ⟨h3.1, by simpa using h3.2⟩
      · exact hacc q h2
    · rw [if_neg hc]
      exact hacc

theorem pat1Map_all_rejected (m1 : List (String × String))
    (h : ∀ pr ∈ m1, strContains (strTrim pr.1) "." = false ∧
      strContains (strTrim pr.1) "/" = false) :
    pat1Map m1 = [] := by
  unfold pat1Map
  induction m1 with
  | nil => rfl
  | cons pr l' ih =>
    simp only [List.foldl_cons]
    have hc := h pr (by simp)
    rw [if_neg (by simp [hc.1, hc.2])]
    exact ih (fun q hq => h q (by simp [hq]))

theorem pat3Map_all_rejected (m3 : List (String × String))
    (h : ∀ pr ∈ m3, strContains (strTrim pr.1) "." = false) :
    pat3Map m3 = [] := by
  unfold pat3Map
  induction m3 with
  | nil => rfl
  | cons pr l' ih =>
    simp only [List.foldl_cons]
    have hc := h pr (by simp)
    rw [if_neg (by simp [hc])]
    exact ih (fun q hq => h q (by simp [hq]))

/-- C8: the three fenced-block patterns are tried in order, each only
when the previous produced no entry; pattern (a) accepts only path
tokens containing a `.` or `/`; pattern (c) accepts only bare paths
containing a `.` and no space; hence when every pattern (a) token lacks
`.` and `/` and every pattern (c) token lacks `.`, the result is exactly
the unfiltered pattern (b) (File:/Path: label) entries. -/
theorem fenced_block_patterns :
    (∀ m1 m2 m3, pat1Map m1 ≠ [] → tryParseMarkdown m1 m2 m3 = pat1Map m1) ∧
    (∀ m1 m2 m3, pat1Map m1 = [] → pat2Map m2 ≠ [] →
      tryParseMarkdown m1 m2 m3 = pat2Map m2) ∧
    (∀ m1 q, q ∈ pat1Map m1 →
      strContains q.1 "." = true ∨ strContains q.1 "/" = true) ∧
    (∀ m3 q, q ∈ pat3Map m3 →
      strContains q.1 "." = true ∧ strContains q.1 " " = false) ∧
    (∀ m1 m2 m3,
      (∀ pr ∈ m1, strContains (strTrim pr.1) "." = false ∧
        strContains (strTrim pr.1) "/" = false) →
      (∀ pr ∈ m3, strContains (strTrim pr.1) "." = false) →
      tryParseMarkdown m1 m2 m3 = pat2Map m2) := by
  have h1 : ∀ m1 m2 m3, pat1Map m1 ≠ [] → tryParseMarkdown m1 m2 m3 = pat1Map m1 := by
    intro m1 m2 m3 h
    unfold tryParseMarkdown
    rw [if_pos]
    cases hp : pat1Map m1 with
    | nil => exact absurd hp h
    | cons a l => simp [hp]
  have h2 : ∀ m1 m2 m3, pat1Map m1 = [] → pat2Map m2 ≠ [] →
      tryParseMarkdown m1 m2 m3 = pat2Map m2 := by
    intro m1 m2 m3 hp1 hp2
    unfold tryParseMarkdown
    rw [hp1]
    simp only [List.length_nil, gt_iff_lt, Nat.lt_irrefl, if_false]
    rw [if_pos]
    cases hp : pat2Map m2 with
    | nil => exact absurd hp hp2
    | cons a l => simp [hp]
  refine ⟨h1, h2, ?_, ?_, ?_⟩
  · intro m1 q hq
    exact pat1_fold_keys m1 [] (by simp) q hq
  · intro m3 q hq
    exact pat3_fold_keys m3 [] (by simp) q hq
  · intro m1 m2 m3 hm1 hm3
    have hp1 : pat1Map m1 = [] := pat1Map_all_rejected m1 hm1
    have hp3 : pat3Map m3 = [] := pat3Map_all_rejected m3 hm3
    by_cases hp2 : pat2Map m2 = []
    · unfold tryParseMarkdown
      rw [hp1, hp2]
      simp [hp3, hp2]
    · exact h2 m1 m2 m3 hp1 hp2

theorem fenced_block_patterns_witness :
    tryParseMarkdown [("mypath", "x")] [("mypath", "code body")]
      [("mypath", "y")] = [("mypath", "code body")] := by
  have h := fenced_block_patterns.2.2.2.2 [("mypath", "x")]
    [("mypath", "code body")] [("mypath", "y")] (by decide) (by decide)
  exact h.trans (by decide)

/-! ## Reconciliation idempotence (claim C6) -/

/-- C6: on a record already in `ready_to_implement`, `reconcileStatus`
performs no status transition and no save — the trace is empty whatever
the comment-listing outcome, and with a successful listing the call is a
complete no-op. -/
theorem reconcile_idempotent :
    (∀ (crs : Except String (List Comment)) (u : String)
      (sv : Except String Unit) (st : State),
      st.status = "ready_to_implement" →
      (reconcileStatus crs u sv st).1 = []) ∧
    (∀ (comments : List Comment) (u : String) (sv : Except String Unit)
      (st : State),
      st.status = "ready_to_implement" →
      reconcileStatus (Except.ok comments) u sv st = ([], Except.ok ())) := by
  have hok : ∀ (comments : List Comment) (u : String) (sv : Except String Unit)
      (st : State), st.status = "ready_to_implement" →
      reconcileStatus (Except.ok comments) u sv st = ([], Except.ok ()) := by
    intro comments u sv st h
    unfold reconcileStatus
    rw [h]
    have hbeq : ("ready_to_implement" == "waiting_for_clarification") = false := by
      decide
    simp only [hbeq, Bool.and_false]
    cases lastBotComment comments u with
    | none => rfl
    | some c => simp
  refine ⟨?_, hok⟩
  intro crs u sv st h
  cases crs with
  | error e => rfl
  | ok comments => rw [hok comments u sv st h]

theorem reconcile_idempotent_witness :
    reconcileStatus
      (Except.ok [⟨"bot", "I\x27ll create a PR for this.", 5⟩]) "bot"
      (Except.ok ())
      ⟨"o", "r", 1, "ready_to_implement", none, "", [], 0, 0, 0, 0⟩ =
      ([], Except.ok ()) := by
  exact reconcile_idempotent.2 [⟨"bot", "I\x27ll create a PR for this.", 5⟩]
    "bot" (Except.ok ())
    ⟨"o", "r", 1, "ready_to_implement", none, "", [], 0, 0, 0, 0⟩ rfl

/-! ## Stuck-implementation recovery threshold (claim C5) -/

/-- C5: with a record in `implementing`, `processIssue` leaves everything
untouched and dispatches nothing while the record is at most 10 minutes
old, and resets the status to `ready_to_implement` and re-dispatches
implementation once it is strictly older than 10 minutes. -/
theorem stuck_recovery_threshold (env : PIEnv) (st : State)
    (hgs : env.getState = Except.ok (some st))
    (hst : st.status = "implementing") :
    (env.now - st.updatedAt ≤ 600 → processIssue env = ([], Except.ok ())) ∧
    (600 < env.now - st.updatedAt → env.stuckSave = Except.ok () →
      processIssue env =
        ([Effect.saved { st with status := "ready_to_implement" },
          Effect.dispatchImpl], env.handleImpl)) := by
  constructor
  · intro hle
    have hc : ¬((10 : Int) * 60 < env.now - st.updatedAt) := by omega
    unfold processIssue reconcileStep dispatchExisting
    rw [hgs]
    simp [hst, hc]
    omega
  · intro hgt hsv
    have hc : (10 : Int) * 60 < env.now - st.updatedAt := by omega
    unfold processIssue reconcileStep dispatchExisting
    rw [hgs]
    simp [hst, hsv, hc]
    omega

theorem stuck_recovery_threshold_witness :
    processIssue
      ⟨Except.ok (some ⟨"o", "r", 1, "implementing", none, "b", [], 0, 0, 0, 0⟩),
        Except.ok [], Except.ok (), Except.ok none, Except.ok (),
        Except.ok [], Except.ok [], Except.ok (), Except.ok (), "bot", 540⟩ =
      ([], Except.ok ()) ∧
    processIssue
      ⟨Except.ok (some ⟨"o", "r", 1, "implementing", none, "b", [], 0, 0, 0, 0⟩),
        Except.ok [], Except.ok (), Except.ok none, Except.ok (),
        Except.ok [], Except.ok [], Except.ok (), Except.ok (), "bot", 660⟩ =
      ([Effect.saved ⟨"o", "r", 1, "ready_to_implement", none, "b", [], 0, 0, 0, 0⟩,
        Effect.dispatchImpl], Except.ok ()) := by
  constructor
  · exact (stuck_recovery_threshold
      ⟨Except.ok (some ⟨"o", "r", 1, "implementing", none, "b", [], 0, 0, 0, 0⟩),
        Except.ok [], Except.ok (), Except.ok none, Except.ok (),
        Except.ok [], Except.ok [], Except.ok (), Except.ok (), "bot", 540⟩
      ⟨"o", "r", 1, "implementing", none, "b", [], 0, 0, 0, 0⟩
      rfl rfl).1 (by decide)
  · exact (stuck_recovery_threshold
      ⟨Except.ok (some ⟨"o", "r", 1, "implementing", none, "b", [], 0, 0, 0, 0⟩),
        Except.ok [], Except.ok (), Except.ok none, Except.ok (),
        Except.ok [], Except.ok [], Except.ok (), Except.ok (), "bot", 660⟩
      ⟨"o", "r", 1, "implementing", none, "b", [], 0, 0, 0, 0⟩
      rfl rfl).2 (by decide) rfl

/-! ## Storage-error handling in the poll loop (claim C3) -/

/-- C3 (counterexample to the claim as stated): in the
stuck-implementation recovery path, a failed `SaveState` (here
`stuckSave = error "disk full"`) is only logged — `processIssue` still
dispatches implementation and returns the handler's success, not the
storage error. -/
theorem storage_error_counterexample :
    processIssue
      ⟨Except.ok (some ⟨"o", "r", 1, "implementing", none, "b", [], 0, 0, 0, 0⟩),
        Except.ok [], Except.ok (), Except.ok none,
        Except.error "disk full",
        Except.ok [], Except.ok [], Except.ok (), Except.ok (), "bot", 700⟩ =
      ([Effect.dispatchImpl], Except.ok ()) := by
  rfl

/-- After the analysis step, a `SaveState` failure is fatal and
propagated whatever the comment branch did. -/
theorem analysisTail_save_error (env : HIAEnv) (st2 : State) (r e : String)
    (hc : env.createComment = Except.ok ())
    (hs : env.saveState = Except.error e) :
    (analysisTail env st2 r).2 = Except.error ("failed to save state: " ++ e) := by
  unfold analysisTail
  by_cases hsp : shouldPostAnalysis st2.conversation = true <;>
    simp [hsp, hc, hs, require, andThen, emit, skip]

/-- C3 (amended): every `GetState` failure in `processIssue` is fatal
and propagated, as is the post-reconciliation reload failure, and a
`SaveState` failure inside a workflow handler (`HandleIssueAssignment`)
is fatal and propagated; but in the stuck-implementation recovery path a
`SaveState` failure is only logged and the poller continues into
dispatching implementation. -/
theorem storage_error_propagation :
    (∀ (env : PIEnv) (e : String), env.getState = Except.error e →
      processIssue env = ([], Except.error ("failed to get state: " ++ e))) ∧
    (∀ (env : PIEnv) (st : State) (e : String),
      env.getState = Except.ok (some st) →
      st.status = "waiting_for_clarification" →
      env.reloadState = Except.error e →
      processIssue env =
        ((reconcileStatus env.recComments env.username env.recSave st).1,
          Except.error ("failed to reload state after reconciliation: " ++ e))) ∧
    (∀ (env : PIEnv) (st : State) (e : String),
      env.getState = Except.ok (some st) →
      st.status = "implementing" →
      600 < env.now - st.updatedAt →
      env.stuckSave = Except.error e →
      processIssue env = ([Effect.dispatchImpl], env.handleImpl)) ∧
    (∀ (issue : Issue) (cs : List Comment) (bot r : String) (u : Usage)
      (imp : Except String Unit) (e : String) (o rp : String) (n : Nat),
      (handleIssueAssignment
        ⟨Except.ok issue, Except.ok none, Except.ok cs, Except.ok bot,
          Except.ok (r, u), Except.ok (r, u), Except.ok (),
          Except.error e, imp⟩ o rp n).2 =
        Except.error ("failed to save state: " ++ e)) := by
  refine ⟨?_, ?_, ?_, ?_⟩
  · intro env e h
    unfold processIssue
    rw [h]
  · intro env st e hgs hst hrl
    unfold processIssue reconcileStep
    rw [hgs]
    simp [hst, hrl]
  · intro env st e hgs hst hgt hsv
    have hc : (10 : Int) * 60 < env.now - st.updatedAt := by omega
    unfold processIssue reconcileStep dispatchExisting
    rw [hgs]
    simp [hst, hsv, hc]
    omega
  · intro issue cs bot r u imp e o rp n
    unfold handleIssueAssignment
    by_cases hlen :
      1 < (builtFreshState o rp n issue (Except.ok cs) (Except.ok bot)).conversation.length <;>
      simp [hlen, require, andThen, emit, skip, analysisTail_save_error]

theorem storage_error_propagation_witness :
    processIssue
      ⟨Except.error "io failure", Except.ok [], Except.ok (), Except.ok none,
        Except.ok (), Except.ok [], Except.ok [], Except.ok (), Except.ok (),
        "bot", 0⟩ =
      ([], Except.error "failed to get state: io failure") := by
  exact storage_error_propagation.1
    ⟨Except.error "io failure", Except.ok [], Except.ok (), Except.ok none,
      Except.ok (), Except.ok [], Except.ok [], Except.ok (), Except.ok (),
      "bot", 0⟩ "io failure" rfl

/-! ## Empty Change Set fallback (claim C2) -/

/-- Sleep effects carry no saved record. -/
theorem filterMap_saved_slept (sl : List Nat) :
    List.filterMap ((fun e => match e with
      | Effect.saved s => some s.status
      | _ => none) ∘ Effect.slept) sl = [] := by
  induction sl with
  | nil => rfl
  | cons a l ih => simp [ih]

/-- C2: when the code-generation reply parses to an empty Change Set,
`StartImplementation` writes no file, posts the raw reply (inside the
fixed review template) as an issue comment, leaves the record saved with
status `waiting_for_clarification`, and returns success, not an
error. -/
theorem empty_changeset_clarification (st0 : State) (lang db : String)
    (gens : List (Except String (String × Usage))) (j : Option JsonResponse)
    (m1 m2 m3 : List (String × String)) (fw : String → Except String Unit)
    (gi : Except String Issue) (sc cc cli : Except String Unit)
    (cpr : Except String Nat) (spr cp : Except String Unit)
    (resp : String) (u : Usage) (sleeps : List Nat) (o r : String) (n : Nat)
    (hgen : retryGenerate gens = (sleeps, some (Except.ok (resp, u))))
    (hparse : (parseCodeChanges j m1 m2 m3).1 = []) :
    (startImplementation
      ⟨Except.ok (some st0), Except.ok (), Except.ok (),
        Except.ok (lang, db), Except.ok (), Except.ok (), gens, j, m1, m2, m3,
        Except.ok (), Except.ok (), fw, gi, sc, cc, cli, cpr, spr, cp⟩
      o r n).2 = Except.ok () ∧
    hasFileWrite (startImplementation
      ⟨Except.ok (some st0), Except.ok (), Except.ok (),
        Except.ok (lang, db), Except.ok (), Except.ok (), gens, j, m1, m2, m3,
        Except.ok (), Except.ok (), fw, gi, sc, cc, cli, cpr, spr, cp⟩
      o r n).1 = false ∧
    Effect.comment (emptyChangeSetComment resp) ∈ (startImplementation
      ⟨Except.ok (some st0), Except.ok (), Except.ok (),
        Except.ok (lang, db), Except.ok (), Except.ok (), gens, j, m1, m2, m3,
        Except.ok (), Except.ok (), fw, gi, sc, cc, cli, cpr, spr, cp⟩
      o r n).1 ∧
    (savedStatuses (startImplementation
      ⟨Except.ok (some st0), Except.ok (), Except.ok (),
        Except.ok (lang, db), Except.ok (), Except.ok (), gens, j, m1, m2, m3,
        Except.ok (), Except.ok (), fw, gi, sc, cc, cli, cpr, spr, cp⟩
      o r n).1).getLast? = some "waiting_for_clarification" := by
  unfold startImplementation
  by_cases hb : st0.branchName = "" <;>
    simp [resolveBranch, hb, require, andThen, emit, skip, hgen, hparse,
      hasFileWrite, savedStatuses, List.any_map, List.filterMap_append,
      Function.comp, filterMap_saved_slept]

theorem empty_changeset_clarification_witness :
    (startImplementation
      ⟨Except.ok (some ⟨"o", "r", 7, "ready_to_implement", none, "b", [], 0, 0, 0, 0⟩),
        Except.ok (), Except.ok (), Except.ok ("Go", "main"), Except.ok (),
        Except.ok (), [Except.ok ("free text answer", ⟨1, 1⟩)], none, [], [], [],
        Except.ok (), Except.ok (), fun _ => Except.ok (),
        Except.ok ⟨"t", "b"⟩, Except.ok (), Except.ok (), Except.ok (),
        Except.ok 9, Except.ok (), Except.ok ()⟩
      "o" "r" 7).2 = Except.ok () ∧
    hasFileWrite (startImplementation
      ⟨Except.ok (some ⟨"o", "r", 7, "ready_to_implement", none, "b", [], 0, 0, 0, 0⟩),
        Except.ok (), Except.ok (), Except.ok ("Go", "main"), Except.ok (),
        Except.ok (), [Except.ok ("free text answer", ⟨1, 1⟩)], none, [], [], [],
        Except.ok (), Except.ok (), fun _ => Except.ok (),
        Except.ok ⟨"t", "b"⟩, Except.ok (), Except.ok (), Except.ok (),
        Except.ok 9, Except.ok (), Except.ok ()⟩
      "o" "r" 7).1 = false ∧
    Effect.comment (emptyChangeSetComment "free text answer") ∈
      (startImplementation
      ⟨Except.ok (some ⟨"o", "r", 7, "ready_to_implement", none, "b", [], 0, 0, 0, 0⟩),
        Except.ok (), Except.ok (), Except.ok ("Go", "main"), Except.ok (),
        Except.ok (), [Except.ok ("free text answer", ⟨1, 1⟩)], none, [], [], [],
        Except.ok (), Except.ok (), fun _ => Except.ok (),
        Except.ok ⟨"t", "b"⟩, Except.ok (), Except.ok (), Except.ok (),
        Except.ok 9, Except.ok (), Except.ok ()⟩
      "o" "r" 7).1 ∧
    (savedStatuses (startImplementation
      ⟨Except.ok (some ⟨"o", "r", 7, "ready_to_implement", none, "b", [], 0, 0, 0, 0⟩),
        Except.ok (), Except.ok (), Except.ok ("Go", "main"), Except.ok (),
        Except.ok (), [Except.ok ("free text answer", ⟨1, 1⟩)], none, [], [], [],
        Except.ok (), Except.ok (), fun _ => Except.ok (),
        Except.ok ⟨"t", "b"⟩, Except.ok (), Except.ok (), Except.ok (),
        Except.ok 9, Except.ok (), Except.ok ()⟩
      "o" "r" 7).1).getLast? = some "waiting_for_clarification" := by
  exact empty_changeset_clarification
    ⟨"o", "r", 7, "ready_to_implement", none, "b", [], 0, 0, 0, 0⟩ "Go" "main"
    [Except.ok ("free text answer", ⟨1, 1⟩)] none [] [] []
    (fun _ => Except.ok ()) (Except.ok ⟨"t", "b"⟩)
    (Except.ok ()) (Except.ok ()) (Except.ok ()) (Except.ok 9)
    (Except.ok ()) (Except.ok ()) "free text answer" ⟨1, 1⟩ [] "o" "r" 7
    rfl rfl

/-! ## Atomicity of record creation (claim C10) -/

/-- C10: when the assistant analysis call fails on a first observation,
`HandleIssueAssignment` returns the error with an empty effect trace —
in particular before any `SaveState` or comment — so no record is
persisted, and a later poll tick with still no record dispatches the
issue as new again. -/
theorem analysis_failure_atomic :
    (∀ (issue : Issue) (cs : List Comment) (bot e1 e2 : String)
      (ci si imp : Except String Unit) (o rp : String) (n : Nat),
      (handleIssueAssignment
        ⟨Except.ok issue, Except.ok none, Except.ok cs, Except.ok bot,
          Except.error e1, Except.error e2, ci, si, imp⟩ o rp n).1 = [] ∧
      (∃ m, (handleIssueAssignment
        ⟨Except.ok issue, Except.ok none, Except.ok cs, Except.ok bot,
          Except.error e1, Except.error e2, ci, si, imp⟩ o rp n).2 =
        Except.error m)) ∧
    (∀ env : PIEnv, env.getState = Except.ok none →
      processIssue env = ([Effect.dispatchIssue], env.handleIssue)) := by
  constructor
  · intro issue cs bot e1 e2 ci si imp o rp n
    by_cases hlen :
      1 < (builtFreshState o rp n issue (Except.ok cs) (Except.ok bot)).conversation.length
    · refine ⟨?_, "failed to analyze issue: " ++ e2, ?_⟩ <;>
        simp [handleIssueAssignment, hlen, require, andThen, emit, skip]
    · refine ⟨?_, "failed to analyze issue: " ++ e1, ?_⟩ <;>
        simp [handleIssueAssignment, hlen, require, andThen, emit, skip]
  · intro env h
    unfold processIssue
    rw [h]

theorem analysis_failure_atomic_witness :
    (handleIssueAssignment
      ⟨Except.ok ⟨"t", "b"⟩, Except.ok none, Except.ok [], Except.ok "bot",
        Except.error "rate limited", Except.error "rate limited",
        Except.ok (), Except.ok (), Except.ok ()⟩ "o" "r" 1).1 = [] ∧
    processIssue
      ⟨Except.ok none, Except.ok [], Except.ok (), Except.ok none,
        Except.ok (), Except.ok [], Except.ok [], Except.ok (), Except.ok (),
        "bot", 0⟩ = ([Effect.dispatchIssue], Except.ok ()) := by
  constructor
  · exact (analysis_failure_atomic.1 ⟨"t", "b"⟩ [] "bot" "rate limited"
      "rate limited" (Except.ok ()) (Except.ok ()) (Except.ok ()) "o" "r" 1).1
  · exact analysis_failure_atomic.2
      ⟨Except.ok none, Except.ok [], Except.ok (), Except.ok none,
        Except.ok (), Except.ok [], Except.ok [], Except.ok (), Except.ok (),
        "bot", 0⟩ rfl

/-! ## First-observation behaviour (claim C1) -/

/-- The all-success oracle environment for a first observation: no
existing record, a successful comment listing and identity lookup, an
analysis reply `r`, and successful comment posting and save. -/
def happyEnv (issue : Issue) (cs : List Comment) (bot r : String)
    (u : Usage) (imp : Except String Unit) : HIAEnv :=
  ⟨Except.ok issue, Except.ok none, Except.ok cs, Except.ok bot,
    Except.ok (r, u), Except.ok (r, u), Except.ok (), Except.ok (), imp⟩

theorem issueDispatchCount_append (a b : List Effect) :
    issueDispatchCount (a ++ b) = issueDispatchCount a + issueDispatchCount b := by
  simp [issueDispatchCount, List.filter_append]

theorem issueDispatchCount_map_comment (l : List Comment) :
    issueDispatchCount (l.map (fun c => Effect.dispatchComment c.body)) = 0 := by
  induction l with
  | nil => rfl
  | cons c l ih =>
    simp only [List.map_cons, issueDispatchCount, List.filter_cons] at ih ⊢
    simp [ih]

theorem issueDispatchCount_map_prcomment (l : List Comment) :
    issueDispatchCount (l.map (fun c => Effect.dispatchPRComment c.body)) = 0 := by
  induction l with
  | nil => rfl
  | cons c l ih =>
    simp only [List.map_cons, issueDispatchCount, List.filter_cons] at ih ⊢
    simp [ih]

theorem issueDispatchCount_reconcile (crs : Except String (List Comment))
    (u : String) (sv : Except String Unit) (st : State) :
    issueDispatchCount (reconcileStatus crs u sv st).1 = 0 := by
  cases crs with
  | error e => rfl
  | ok comments =>
    simp only [reconcileStatus]
    split
    · rfl
    · split
      · cases sv <;> rfl
      · rfl

theorem issueDispatchCount_reconcileStep (env : PIEnv) (st0 : State) :
    issueDispatchCount (reconcileStep env st0).1 = 0 := by
  unfold reconcileStep
  split
  · split <;> simp [issueDispatchCount_reconcile]
  · rfl

theorem issueDispatchCount_dispatchExisting (env : PIEnv) (st : State) :
    issueDispatchCount (dispatchExisting env st).1 = 0 := by
  unfold dispatchExisting
  by_cases h1 : (st.status == "ready_to_implement") = true
  · simp [h1]
    rfl
  · by_cases h2 : (st.status == "implementing") = true
    · by_cases h3 : (10 : Int) * 60 < env.now - st.updatedAt
      · have h3n : (600 : Int) < env.now - st.updatedAt := by omega
        cases hs : env.stuckSave <;> simp [h1, h2, h3n, hs] <;> rfl
      · have h3n : ¬((600 : Int) < env.now - st.updatedAt) := by omega
        simp [h1, h2, h3n]
        rfl
    · by_cases h4 : (st.status == "waiting_for_clarification") = true
      · have hst : st.status = "waiting_for_clarification" := by
          simpa using h4
        have h5 : (st.status == "pr_created" || st.status == "reviewing") = false := by
          rw [hst]
          decide
        cases hn : env.newComments with
        | error e => simp [h1, h2, h4, hn]; rfl
        | ok cs =>
          simp [h1, h2, h4, hn, h5]
          simp [issueDispatchCount_map_comment]
      · by_cases h6 : (st.status == "pr_created" || st.status == "reviewing") = true
        · cases hp : st.prNumber with
          | none => simp [h1, h2, h4, h6, hp]; rfl
          | some pn =>
            cases hpc : env.prComments with
            | error e => simp [h1, h2, h4, h6, hp, hpc]; rfl
            | ok cs =>
              simp [h1, h2, h4, h6, hp, hpc]
              simp [issueDispatchCount_map_prcomment]
        · simp [h1, h2, h4, h6]
          rfl

/-- A poll tick that finds an existing record never invokes the
new-issue callback again. -/
theorem issueDispatchCount_existing (env : PIEnv) (st : State)
    (h : env.getState = Except.ok (some st)) :
    issueDispatchCount (processIssue env).1 = 0 := by
  unfold processIssue
  rw [h]
  split
  next e heq => exact absurd heq (by simp)
  next heq => exact absurd heq (by simp)
  next st0 heq =>
    split
    next tr e2 heq2 =>
      have h0 : (reconcileStep env st0).1 = tr := congrArg Prod.fst heq2
      show issueDispatchCount tr = 0
      rw [← h0]
      exact issueDispatchCount_reconcileStep env st0
    next tr st' heq2 =>
      have h0 : (reconcileStep env st0).1 = tr := congrArg Prod.fst heq2
      have htr : issueDispatchCount tr = 0 := by
        rw [← h0]
        exact issueDispatchCount_reconcileStep env st0
      show issueDispatchCount (tr ++ (dispatchExisting env st').1) = 0
      rw [issueDispatchCount_append, htr, issueDispatchCount_dispatchExisting]

theorem lastContent_two (m1 m2 : AgentMessage) :
    lastContent [m1, m2] = m2.content := rfl

/-- Closed form of the analysis tail when posting and saving succeed:
one comment exactly when the conversation still has its initial
two-message shape, one save with the heuristic-determined status, and a
chain into implementation exactly when the reply is not a question. -/
theorem analysisTail_eval (env : HIAEnv) (st2 : State) (r : String)
    (hc : env.createComment = Except.ok ())
    (hs : env.saveState = Except.ok ()) :
    analysisTail env st2 r =
      ((if shouldPostAnalysis st2.conversation then
          [Effect.comment
            ("👋 Hi! I\x27ve been assigned to this issue. Here\x27s my understanding:\n\n"
              ++ r)]
        else []) ++
        (Effect.saved { st2 with status :=
            (if isAskingQuestion r then "waiting_for_clarification"
             else "ready_to_implement") } ::
          (if isAskingQuestion r then [] else [Effect.dispatchImpl])),
       if isAskingQuestion r then Except.ok () else env.startImpl) := by
  have h1 : ("waiting_for_clarification" == "ready_to_implement") = false := by
    decide
  have h2 : ("ready_to_implement" == "ready_to_implement") = true := by
    decide
  unfold analysisTail
  by_cases hq : isAskingQuestion r = true <;>
    by_cases hsp : shouldPostAnalysis st2.conversation = true <;>
    simp [hq, hsp, hc, hs, h1, h2, require, andThen, emit, skip]

/-- C1 (counterexample to the claim as stated): a first observation of an
issue that already has one pre-existing comment posts ZERO analysis
comments — the conversation is no longer at its initial two-message
shape, so `shouldComment` is false — not exactly one. -/
theorem first_observation_counterexample :
    commentCount (handleIssueAssignment
      (happyEnv ⟨"Add endpoint", "body"⟩ [⟨"alice", "please add it", 1⟩]
        "bot" "Could you clarify the scope" ⟨1, 1⟩ (Except.ok ()))
      "o" "r" 1).1 = 0 := by
  rfl

/-- C1 (amended): on a first observation with no record and successful
oracles, `HandleIssueAssignment` produces exactly one of the two
outcomes — status `waiting_for_clarification` with no implementation
chain, or a single chain into implementation — and posts exactly one
analysis comment when the issue has no pre-existing comments, zero when
it has pre-existing comments (except the corner case of a single
pre-existing comment whose body equals the analysis reply, where one is
posted); and once a record exists, later poll ticks never re-dispatch
the issue as new. -/
theorem first_observation_amended (issue : Issue) (cs : List Comment)
    (bot r : String) (u : Usage) (imp : Except String Unit)
    (o rp : String) (n : Nat) :
    ((isAskingQuestion r = true →
      savedStatuses (handleIssueAssignment (happyEnv issue cs bot r u imp) o rp n).1 =
        ["waiting_for_clarification"] ∧
      implDispatchCount (handleIssueAssignment (happyEnv issue cs bot r u imp) o rp n).1 = 0 ∧
      (handleIssueAssignment (happyEnv issue cs bot r u imp) o rp n).2 = Except.ok ()) ∧
     (isAskingQuestion r = false →
      savedStatuses (handleIssueAssignment (happyEnv issue cs bot r u imp) o rp n).1 =
        ["ready_to_implement"] ∧
      implDispatchCount (handleIssueAssignment (happyEnv issue cs bot r u imp) o rp n).1 = 1 ∧
      (handleIssueAssignment (happyEnv issue cs bot r u imp) o rp n).2 = imp)) ∧
    ((cs = [] →
      commentCount (handleIssueAssignment (happyEnv issue cs bot r u imp) o rp n).1 = 1) ∧
     (∀ c cs', cs = c :: cs' → (cs' ≠ [] ∨ c.body ≠ r) →
      commentCount (handleIssueAssignment (happyEnv issue cs bot r u imp) o rp n).1 = 0) ∧
     (∀ c, cs = [c] → c.body = r →
      commentCount (handleIssueAssignment (happyEnv issue cs bot r u imp) o rp n).1 = 1)) ∧
    (∀ (penv : PIEnv) (st : State), penv.getState = Except.ok (some st) →
      issueDispatchCount (processIssue penv).1 = 0) := by
  refine ⟨⟨?_, ?_⟩, ⟨?_, ?_, ?_⟩, ?_⟩
  · intro hq
    unfold handleIssueAssignment happyEnv
    by_cases hlen :
      1 < (builtFreshState o rp n issue (Except.ok cs) (Except.ok bot)).conversation.length <;>
      simp [hlen, hq, require, andThen, emit, skip, analysisTail_eval,
        savedStatuses, implDispatchCount, List.filterMap_append,
        List.filter_append]
  · intro hq
    unfold handleIssueAssignment happyEnv
    by_cases hlen :
      1 < (builtFreshState o rp n issue (Except.ok cs) (Except.ok bot)).conversation.length <;>
      simp [hlen, hq, require, andThen, emit, skip, analysisTail_eval,
        savedStatuses, implDispatchCount, List.filterMap_append,
        List.filter_append]
  · intro hcs
    subst hcs
    have hlen : ¬(1 <
        (builtFreshState o rp n issue (Except.ok []) (Except.ok bot)).conversation.length) := by
      simp [builtFreshState]
    unfold handleIssueAssignment happyEnv
    simp [hlen, builtFreshState, require, andThen, emit, skip, lastContent_two,
      analysisTail_eval, shouldPostAnalysis, commentCount, List.filter_append]
  · intro c cs' hcs hside
    subst hcs
    have hlen : 1 <
        (builtFreshState o rp n issue (Except.ok (c :: cs')) (Except.ok bot)).conversation.length := by
      simp [builtFreshState]
    cases cs' with
    | nil =>
      have hbody : c.body ≠ r := by
        rcases hside with h1 | h2
        · exact absurd rfl h1
        · exact h2
      unfold handleIssueAssignment happyEnv
      simp [hlen, builtFreshState, require, andThen, emit, skip, lastContent_two,
        analysisTail_eval, shouldPostAnalysis, hbody, commentCount,
        List.filter_append]
    | cons c2 rest =>
      unfold handleIssueAssignment happyEnv
      simp [hlen, builtFreshState, require, andThen, emit, skip,
        analysisTail_eval, commentCount, List.filter_append]
      repeat' split
      all_goals simp_all [shouldPostAnalysis, commentCount]
  · intro c hcs hbody
    subst hcs
    have hlen : 1 <
        (builtFreshState o rp n issue (Except.ok [c]) (Except.ok bot)).conversation.length := by
      simp [builtFreshState]
    unfold handleIssueAssignment happyEnv
    simp [hlen, builtFreshState, require, andThen, emit, skip, lastContent_two,
      analysisTail_eval, shouldPostAnalysis, hbody, commentCount,
      List.filter_append]
  · exact issueDispatchCount_existing

theorem first_observation_amended_witness :
    commentCount (handleIssueAssignment
      (happyEnv ⟨"Add health check endpoint", ""⟩ [] "bot"
        "I have enough context, I\x27ll create a PR for this." ⟨1, 1⟩
        (Except.ok ())) "o" "r" 2).1 = 1 ∧
    savedStatuses (handleIssueAssignment
      (happyEnv ⟨"Add health check endpoint", ""⟩ [] "bot"
        "I have enough context, I\x27ll create a PR for this." ⟨1, 1⟩
        (Except.ok ())) "o" "r" 2).1 = ["ready_to_implement"] := by
  constructor
  · exact (first_observation_amended ⟨"Add health check endpoint", ""⟩ []
      "bot" "I have enough context, I\x27ll create a PR for this." ⟨1, 1⟩
      (Except.ok ()) "o" "r" 2).2.1.1 rfl
  · exact ((first_observation_amended ⟨"Add health check endpoint", ""⟩ []
      "bot" "I have enough context, I\x27ll create a PR for this." ⟨1, 1⟩
      (Except.ok ()) "o" "r" 2).1.2 (by decide)).1

end NB
